import Mathlib

/-!
Verification development for the trading-automation signal pipeline.

The definitions below are a shallow embedding of the Python sources:
`src/pipeline.py`, `src/run_strategies.py`, `src/helpers.py`,
`src/stock_universe.py`, `src/pnl_tracker.py` and
`src/utils/telegram_alert.py`.  Machine floats are modelled as rationals,
Python dicts carrying signal fields as a structure with `Option` fields
for the keys a strategy may omit, and exception control flow as explicit
result types.
-/

namespace Trading

/-- A signal dict as produced by a strategy and enriched by the pipeline.
Required keys (`Stock`, `Side`, `Entry`) are plain fields; keys that a
strategy may omit (`Confidence`, `Strategy`, `StrategyType`, `StopLoss`,
`Target`, `Timestamp`) are `Option`s, `none` meaning the key is absent. -/
structure Sig where
  stock : String
  side : String
  entry : ℚ
  confidence : Option ℚ
  strategy : Option String
  strategyType : Option String
  stopLoss : Option ℚ
  target : Option ℚ
  timestamp : Option String
deriving DecidableEq, Repr

/-- Result of one `mod.generate_signal(ticker, mdf)` call: the strategy
either raises an exception (`fault`) or returns `None`/a signal dict. -/
inductive StratRes where
  | fault : StratRes
  | ok : Option Sig → StratRes
deriving DecidableEq, Repr

/-- A loaded strategy module: its `generate_signal` function over the
multi-timeframe data of type `α`, and its optional `STRATEGY_TYPE`
attribute (`getattr(mod, "STRATEGY_TYPE", "daily")`). -/
structure StratModule (α : Type) where
  generate_signal : String → α → StratRes
  strategyTypeAttr : Option String

/-- Result of `get_multi_timeframes(t, needed)`: either an exception or a
multi-timeframe dataset of type `α`. -/
inductive FetchRes (α : Type) where
  | fault : FetchRes α
  | ok : α → FetchRes α

/-- Source form `round(x, 2)`, on rationals: round to 2 decimal
places (Mathlib `round`, i.e. half away from the lower integer). -/
def round2 (q : ℚ) : ℚ := (round (100 * q) : ℤ) / 100

/-- The per-signal enrichment in `pipeline.run` (lines 183-187):
`sig["Strategy"] = sig.get("Strategy", name)`,
`sig.setdefault("StrategyType", getattr(mod, "STRATEGY_TYPE", "daily"))`,
`sig.setdefault("StopLoss", round(sig["Entry"] * 0.985, 2))`,
`sig.setdefault("Target", round(sig["Entry"] * 1.015, 2))`,
`sig["Timestamp"] = ist_now().strftime(...)` (the formatted time is the
parameter `now`). -/
def fillRun (name : String) (modType : Option String) (now : String) (s : Sig) : Sig :=
  { s with
    strategy := some (s.strategy.getD name)
    strategyType := some (s.strategyType.getD (modType.getD "daily"))
    stopLoss := some (s.stopLoss.getD (round2 (s.entry * (985/1000))))
    target := some (s.target.getD (round2 (s.entry * (1015/1000))))
    timestamp := some now }

/-- The inner strategy loop of `pipeline.run` for one ticker (lines
178-193).  The loop body sits inside the per-ticker `try`, so a `fault`
raised by any strategy aborts the remaining strategies for this ticker
(the exception is only caught by the per-ticker `except`); a falsy
(`None`) result or a sub-floor confidence merely skips this strategy. -/
def runEvalStrategies {α : Type} (now t : String) (mdf : α) :
    List (String × StratModule α) → List Sig
  | [] => []
  | (name, mod) :: rest =>
    match mod.generate_signal t mdf with
    | StratRes.fault => []
    | StratRes.ok none => runEvalStrategies now t mdf rest
    | StratRes.ok (some sig) =>
      let s := fillRun name mod.strategyTypeAttr now sig
      if s.confidence.getD 0 < 3/10 then runEvalStrategies now t mdf rest
      else s :: runEvalStrategies now t mdf rest

/-- The signal-collection loop of `pipeline.run` (lines 175-195): for
each ticker of the watchlist, fetch the multi-timeframe data and run all
strategies; any exception while processing a ticker (fetch fault or
strategy fault) is caught by the per-ticker `except` and the loop moves
to the next ticker, keeping the signals collected so far. -/
def runSignals {α : Type} (now : String) (fetch : String → FetchRes α)
    (mods : List (String × StratModule α)) : List String → List Sig
  | [] => []
  | t :: ts =>
    (match fetch t with
     | FetchRes.fault => []
     | FetchRes.ok mdf => runEvalStrategies now t mdf mods) ++
    runSignals now fetch mods ts

/-- Function `evaluate_for_ticker` from `src/run_strategies.py` (lines 29-41),
parameterised by the discovered strategy modules: each strategy runs in
its own `try`, so a fault is swallowed (`except Exception: continue`) and
the remaining strategies still run; a returned signal gets its `Strategy`
key defaulted and is kept iff `sig.get("Confidence", 0) >= threshold`. -/
def evaluate_for_ticker {α : Type} (mods : List (String × StratModule α))
    (ticker : String) (multi_df : α) (confidence_threshold : ℚ) : List Sig :=
  match mods with
  | [] => []
  | (name, mod) :: rest =>
    (match mod.generate_signal ticker multi_df with
     | StratRes.fault => evaluate_for_ticker rest ticker multi_df confidence_threshold
     | StratRes.ok none => evaluate_for_ticker rest ticker multi_df confidence_threshold
     | StratRes.ok (some sig) =>
       let s := { sig with strategy := some (sig.strategy.getD name) }
       if s.confidence.getD 0 ≥ confidence_threshold then
         s :: evaluate_for_ticker rest ticker multi_df confidence_threshold
       else evaluate_for_ticker rest ticker multi_df confidence_threshold)

/-- An outbound or persistence effect dispatched by `pipeline.run` after
signal collection. -/
inductive Effect where
  | saveJson (path : String) (signals : List Sig)
  | appendCsvE (path : String) (signals : List Sig)
  | sheetsAppend (signals : List Sig)
  | telegramMsg (signals : List Sig)
deriving DecidableEq, Repr

/-- Function `send_to_google_sheets` (pipeline lines 39-63): returns without
appending when the signal list is empty, otherwise appends one row per
signal to the spreadsheet. -/
def send_to_google_sheets (signals : List Sig) : List Effect :=
  if signals = [] then [] else [Effect.sheetsAppend signals]

/-- Function `send_high_confidence_trades` (pipeline lines 66-90): keep signals
with `Confidence >= min_confidence`, and if any remain, send one Telegram
message listing the top `limit` of them sorted by descending confidence
(Python's stable sort). -/
def send_high_confidence_trades (signals : List Sig) (min_confidence : ℚ)
    (limit : ℕ) : List Effect :=
  let high_conf := signals.filter (fun s => s.confidence.getD 0 ≥ min_confidence)
  if high_conf = [] then []
  else
    let top := (high_conf.mergeSort
      (fun a b => b.confidence.getD 0 ≤ a.confidence.getD 0)).take limit
    [Effect.telegramMsg top]

/-- The effect trace of `pipeline.run` (lines 164-206): after the
trading-hours gate, collect signals over the watchlist (the watchlist
built from the pool is passed in, the data provider being external), and
if any were found persist them (JSON snapshot, CSV trade log) and
dispatch the notifications.  `dry_run` is the function's first parameter;
exactly as in the source it is never read by the body.  The subsequent
automatic PnL-tracker invocation and the 15:30 end-of-day summary are
separate subsystems and are not part of this trace. -/
def runEffects {α : Type} (dry_run : Bool) (marketOpen : Bool) (now : String)
    (fetch : String → FetchRes α) (mods : List (String × StratModule α))
    (watchlist : List String) : List Effect :=
  if marketOpen = false then []
  else
    let signals := runSignals now fetch mods watchlist
    if signals = [] then []
    else
      [Effect.saveJson "output/live_signals.json" signals,
       Effect.appendCsvE "output/trade_log.csv" signals] ++
      send_to_google_sheets signals ++
      send_high_confidence_trades signals (8/10) 3

/-! ### Heartbeat rate limiting (`src/utils/telegram_alert.py`) -/

/-- The state of `output/last_heartbeat.json` as seen by
`can_send_heartbeat`: the file may be absent, present but unreadable or
not valid JSON, or a valid JSON object carrying a timestamp (seconds). -/
inductive HbFile where
  | absent : HbFile
  | unreadable : HbFile
  | stamped : ℚ → HbFile
deriving DecidableEq, Repr

/-- Function `can_send_heartbeat(interval_minutes)` (lines 39-55): `True` when the
sentinel file is absent, `True` when reading/parsing it raises (the
`except` returns `True`), otherwise `True` iff at least
`interval_minutes * 60` seconds have elapsed since the stored timestamp
(`time.time()` is the parameter `now`). -/
def can_send_heartbeat (now : ℚ) (interval_minutes : ℚ) (file : HbFile) : Bool :=
  match file with
  | HbFile.absent => true
  | HbFile.unreadable => true
  | HbFile.stamped ts => decide (now - ts ≥ interval_minutes * 60)

/-- Function `update_heartbeat` (lines 58-64): write the current
`time.time()` as the stored timestamp of the sentinel file. -/
def update_heartbeat (now : ℚ) : HbFile := HbFile.stamped now

/-! ### Position tracking (`src/pnl_tracker.py`, `src/pipeline.py`) -/

/-- Function `compute(row)` from `pnl_tracker.evaluate` (lines 115-142): classify
one tracked signal from its live price, entry, target, stop-loss and
side.  A live price of `NaN` is modelled as `none`; the parse-failure
path of the source likewise returns `("Open", 0.0)`. -/
def compute (livePrice : Option ℚ) (entry target stop : ℚ) (side : String) :
    String × ℚ :=
  match livePrice with
  | none => ("Open", 0)
  | some lp =>
    if lp = 0 then ("Open", 0)
    else if side = "BUY" then
      if lp ≥ target then ("Target Hit", (target - entry) / entry * 100)
      else if lp ≤ stop then ("SL Hit", (stop - entry) / entry * 100)
      else ("Open", (lp - entry) / entry * 100)
    else if side = "SELL" then
      if lp ≤ target then ("Target Hit", (entry - target) / entry * 100)
      else if lp ≥ stop then ("SL Hit", (entry - stop) / entry * 100)
      else ("Open", (entry - lp) / entry * 100)
    else ("Open", 0)

/-- The per-signal classification of `pipeline.evaluate_pnl` (lines
102-121): same state machine, with the resulting PnL rounded to two
decimals when appended to the results; any side other than `"BUY"` is
treated as SELL. -/
def evaluate_pnl_classify (last_price entry target stop : ℚ) (side : String) :
    String × ℚ :=
  let (status, pnl) :=
    if side = "BUY" then
      if last_price ≥ target then ("Target Hit", (target - entry) / entry * 100)
      else if last_price ≤ stop then ("SL Hit", (stop - entry) / entry * 100)
      else ("Open", (last_price - entry) / entry * 100)
    else
      if last_price ≤ target then ("Target Hit", (entry - target) / entry * 100)
      else if last_price ≥ stop then ("SL Hit", (entry - stop) / entry * 100)
      else ("Open", (entry - last_price) / entry * 100)
  (status, round2 pnl)

/-! ### CSV trade log (`src/helpers.py`, `append_csv`) -/

/-- A parsed CSV file: the header line and the data rows, each row a list
of cells aligned with the header. -/
structure CsvFile where
  header : List String
  rows : List (List String)
deriving DecidableEq, Repr

/-- A signal dict to be appended, as an ordered association list
(`key, value` in Python dict insertion order). -/
abbrev Row := List (String × String)

/-- Lookup `r.get(k, "")` on an association-list dict. -/
def rget (r : Row) (k : String) : String :=
  ((r.find? (fun p => p.1 == k)).map Prod.snd).getD ""

/-- Loop `for k in r.keys(): if k not in acc: acc.append(k)`. -/
def addFields (acc : List String) (ks : List String) : List String :=
  ks.foldl (fun a k => if k ∈ a then a else a ++ [k]) acc

/-- The `new_fieldnames` collection of `append_csv` (lines 55-60): field
names of all rows in order of first appearance. -/
def collectFields (rows : List Row) : List String :=
  rows.foldl (fun acc r => addFields acc (r.map Prod.fst)) []

/-- Lookup `dict(zip(header, row)).get(fn, "")`: the cell of a parsed CSV row at
a field name (first occurrence), `""` when the field is not in the
header, as `csv.DictReader` followed by `r.get(fn, "")` yields. -/
def cellOf (header : List String) (row : List String) (fn : String) : String :=
  (((header.zip row).find? (fun p => p.1 == fn)).map Prod.snd).getD ""

/-- Comparison `set(a) == set(b)` on field-name lists. -/
def setEq (a b : List String) : Bool :=
  a.all (fun x => x ∈ b) && b.all (fun x => x ∈ a)

/-- Function `append_csv(data, filename)` (helpers lines 31-103) in the case where
the file already exists, on an already-normalised non-empty row list:
build the combined header (existing order first, then new fields in
first-appearance order); if it differs as a set from the existing header,
rewrite the whole file — old rows padded via `r.get(fn, "")`, then the
new rows — otherwise append the new rows under the existing header
(`csv.DictWriter` fills missing fields with `""` and the extra keys were
filtered out). -/
def append_csv (file : CsvFile) (rows : List Row) : CsvFile :=
  let new_fieldnames := collectFields rows
  let final_fieldnames :=
    file.header ++ new_fieldnames.filter (fun fn => fn ∉ file.header)
  if setEq final_fieldnames file.header = false then
    { header := final_fieldnames,
      rows := file.rows.map (fun r => final_fieldnames.map (cellOf file.header r)) ++
              rows.map (fun r => final_fieldnames.map (rget r)) }
  else
    { header := file.header,
      rows := file.rows ++ rows.map (fun r => file.header.map (rget r)) }

/-! ### Universe scorer (`src/stock_universe.py`) -/

/-- One daily bar of the candidate-scoring data (the `Close` and `Volume`
columns after `dropna`). -/
structure DayBar where
  close : ℚ
  volume : ℚ
deriving DecidableEq, Repr

/-- Arithmetic mean, as `pandas` `mean()` on a non-empty series. -/
def qmean (l : List ℚ) : ℚ := l.sum / l.length

/-- The last `n` entries of a list (`Series.tail(n)` / a trailing
`rolling(n)` window evaluated at the last row). -/
def lastN (n : ℕ) (l : List ℚ) : List ℚ := l.drop (l.length - n)

/-- Maximum of a list, `0` for the empty list (guarded away by callers). -/
def listMax : List ℚ → ℚ
  | [] => 0
  | h :: t => t.foldl max h

/-- Minimum of a list, `0` for the empty list. -/
def listMin : List ℚ → ℚ
  | [] => 0
  | h :: t => t.foldl min h

/-- Function `is_close_to_52w_high_low(df, pct_threshold)` (stock_universe lines
49-69): true iff the most recent close is within `pct_threshold` percent
of the maximum or minimum of the last 252 closes. -/
def is_close_to_52w_high_low (df : List DayBar) (pct_threshold : ℚ) : Bool :=
  if df = [] then false
  else
    let closes := df.map DayBar.close
    let close := closes.getLastD 0
    let last_252 := lastN 252 closes
    if last_252 = [] then false
    else
      let high52 := listMax last_252
      let low52 := listMin last_252
      if high52 ≤ 0 ∨ low52 ≤ 0 then false
      else
        let pct_high := (high52 - close) / high52 * 100
        let pct_low := (close - low52) / low52 * 100
        decide (pct_high ≤ pct_threshold ∨ pct_low ≤ pct_threshold)

/-- The tunable parameters of `get_dynamic_tickers` (`lookback_days` only
affects the length of the fetched history, which is part of the data
argument here). -/
structure UniverseParams where
  top_n : ℕ
  vol_multiplier : ℚ
  price_move_pct : ℚ
  use_52w : Bool
  pct_52w : ℚ
deriving DecidableEq, Repr

/-- The scored entry appended for a qualifying candidate (stock_universe
lines 144-150). -/
structure ScoreEntry where
  ticker : String
  score : ℚ
  vol_ratio : ℚ
  move_pct : ℚ
  prox52 : Bool
deriving DecidableEq, Repr

/-- The per-candidate body of the `get_dynamic_tickers` scan
(stock_universe lines 96-150), on the fetched daily bars of one ticker:
compute the 20-day average volume, day-over-day move, volume ratio, and
accumulate the score; return the scored entry iff the score is positive,
`none` when the dataframe is too short or nothing triggers. -/
def scoreTicker (p : UniverseParams) (t : String) (df : List DayBar) :
    Option ScoreEntry :=
  if df.length < 10 then none
  else
    let volumes := df.map DayBar.volume
    let closes := df.map DayBar.close
    let avg_vol := if 20 ≤ volumes.length then qmean (lastN 20 volumes)
                   else qmean volumes
    let close := closes.getLastD 0
    let vol := volumes.getLastD 0
    let prev_close := if 2 ≤ df.length then closes.getD (closes.length - 2) 0
                      else close
    let move_pct := if prev_close ≠ 0 then (close - prev_close) / prev_close * 100
                    else 0
    let vol_ratio := vol / (avg_vol + 1 / 1000000000)
    let s_vol := if vol_ratio ≥ p.vol_multiplier
                 then (vol_ratio - p.vol_multiplier) * 2 + 1 else 0
    let s_move := if |move_pct| ≥ p.price_move_pct
                  then |move_pct| / p.price_move_pct else 0
    let prox52 := p.use_52w && is_close_to_52w_high_low df p.pct_52w
    let s_prox := if prox52 then 8 / 10 else 0
    let score := s_vol + s_move + s_prox
    if score > 0 then some ⟨t, score, vol_ratio, move_pct, prox52⟩ else none

/-- Function `get_dynamic_tickers` (stock_universe lines 71-159): scan the pool
(a ticker whose data fetch fails or comes back empty is skipped, modelled
by `data t = none`), keep the positively scored entries, sort by score
descending (stable), and return the tickers of the top `top_n` entries. -/
def get_dynamic_tickers (p : UniverseParams) (pool : List String)
    (data : String → Option (List DayBar)) : List String :=
  let scored := pool.filterMap (fun t => (data t).bind (scoreTicker p t))
  let sorted := scored.mergeSort (fun a b => b.score ≤ a.score)
  (sorted.take p.top_n).map ScoreEntry.ticker

/-- Function `build_watchlist` (stock_universe lines 161-182): the core list (from
config, a parameter here) followed by the dynamic picks, deduplicated
keeping first occurrences. -/
def build_watchlist (core : List String) (p : UniverseParams)
    (pool : List String) (data : String → Option (List DayBar)) : List String :=
  let dynamic := get_dynamic_tickers p pool data
  (core ++ dynamic).foldl (fun acc t => if t ∈ acc then acc else acc ++ [t]) []

/-! ### Concrete fixtures used by witnesses and counterexamples -/

/-- A data provider whose fetch always succeeds (data contents irrelevant). -/
def fetchOkU : String → FetchRes Unit := fun _ => FetchRes.ok ()

/-- A raw strategy signal: BUY AAA at 100, confidence 0.9, levels set. -/
def sigX : Sig :=
  ⟨"AAA", "BUY", 100, some (9/10), none, none, some 98, some 105, none⟩

/-- A second raw signal on the same (symbol, side): BUY AAA, confidence 0.7. -/
def sigY : Sig :=
  ⟨"AAA", "BUY", 101, some (7/10), none, none, some 99, some 106, none⟩

/-- A raw SELL signal that omits `StopLoss` and `Target`. -/
def sellSigNL : Sig :=
  ⟨"AAA", "SELL", 100, some (9/10), none, none, none, none, none⟩

/-- A raw signal that omits the `Confidence` key. -/
def sigNC : Sig := ⟨"AAA", "BUY", 100, none, none, none, some 98, some 105, none⟩

/-- Strategy module always emitting `sigX`. -/
def modX : StratModule Unit := ⟨fun _ _ => StratRes.ok (some sigX), none⟩

/-- Strategy module always emitting `sigY`. -/
def modY : StratModule Unit := ⟨fun _ _ => StratRes.ok (some sigY), none⟩

/-- Strategy module always emitting the confidence-less `sigNC`. -/
def modNC : StratModule Unit := ⟨fun _ _ => StratRes.ok (some sigNC), none⟩

/-- Strategy module whose `generate_signal` always raises. -/
def faultModU : StratModule Unit := ⟨fun _ _ => StratRes.fault, none⟩

/-- Ten daily bars with one old spike high and low, a flat recent price
and flat volume: no scoring rule triggers, the score stays zero. -/
def flatBars : List DayBar :=
  [⟨200, 100⟩, ⟨50, 100⟩, ⟨100, 100⟩, ⟨100, 100⟩, ⟨100, 100⟩,
   ⟨100, 100⟩, ⟨100, 100⟩, ⟨100, 100⟩, ⟨100, 100⟩, ⟨100, 100⟩]

/-- The default parameters of `get_dynamic_tickers`
(`top_n=8, vol_multiplier=1.5, price_move_pct=3.0, use_52w=True, pct_52w=2.0`). -/
def defaultParams : UniverseParams := ⟨8, 3/2, 3, true, 2⟩

/-- A one-symbol data provider serving `flatBars` for ticker `"X"`. -/
def flatData : String → Option (List DayBar) :=
  fun t => if t = "X" then some flatBars else none

/-! ## Claims -/

/-- C8: with `update_heartbeat` recording the send time `t0`, a later
heartbeat request at `t0 + d` seconds is allowed iff `d` is at least the
configured interval (in minutes) times 60; in particular, with a
60-minute interval a request 10 minutes after the first is suppressed and
a request 61 minutes after is allowed. -/
theorem heartbeat_throttling (t0 d interval : ℚ) :
    can_send_heartbeat (t0 + d) interval (update_heartbeat t0) =
      decide (d ≥ interval * 60) ∧
    can_send_heartbeat (t0 + 10 * 60) 60 (update_heartbeat t0) = false ∧
    can_send_heartbeat (t0 + 61 * 60) 60 (update_heartbeat t0) = true := by
  refine ⟨?_, ?_, ?_⟩ <;>
    simp only [can_send_heartbeat, update_heartbeat, add_sub_cancel_left,
      decide_eq_decide, decide_eq_false_iff_not, decide_eq_true_eq] <;>
    norm_num

/-- C9: when the heartbeat sentinel file exists but cannot be read or
parsed as JSON, `can_send_heartbeat` returns `True` for every current
time and every interval — the rate limiter fails open. -/
theorem heartbeat_fails_open (now interval : ℚ) :
    can_send_heartbeat now interval HbFile.unreadable = true := rfl

/-- C5: the Position Tracker (`pnl_tracker.compute`, and the identical
classification in `pipeline.evaluate_pnl`) classifies a tracked signal as
`Target Hit` when the live price reaches or passes the target in the
favorable direction, as the stop-hit state (rendered `"SL Hit"` by the
code, the spec's `Stop Hit`) when it reaches or passes the stop-loss, and
`Open` otherwise; PnL% is relative to entry with favorable movement
positive for both sides; in particular for side=BUY, entry=100,
target=105, stop=98: price 106 → Target Hit +5.0, price 97 → stop hit
−2.0, price 101 → Open +1.0. -/
theorem position_tracker_classification :
    (∀ lp entry target stop : ℚ, 0 < entry → 0 < lp → stop < entry → entry < target →
      ((target ≤ lp →
          compute (some lp) entry target stop "BUY" =
            ("Target Hit", (target - entry) / entry * 100) ∧
          0 < (target - entry) / entry * 100) ∧
       (lp ≤ stop →
          compute (some lp) entry target stop "BUY" =
            ("SL Hit", (stop - entry) / entry * 100) ∧
          (stop - entry) / entry * 100 < 0) ∧
       (stop < lp → lp < target →
          compute (some lp) entry target stop "BUY" =
            ("Open", (lp - entry) / entry * 100)))) ∧
    (∀ lp entry target stop : ℚ, 0 < entry → 0 < lp → target < entry → entry < stop →
      ((lp ≤ target →
          compute (some lp) entry target stop "SELL" =
            ("Target Hit", (entry - target) / entry * 100) ∧
          0 < (entry - target) / entry * 100) ∧
       (stop ≤ lp →
          compute (some lp) entry target stop "SELL" =
            ("SL Hit", (entry - stop) / entry * 100) ∧
          (entry - stop) / entry * 100 < 0) ∧
       (target < lp → lp < stop →
          compute (some lp) entry target stop "SELL" =
            ("Open", (entry - lp) / entry * 100)))) ∧
    (compute (some 106) 100 105 98 "BUY" = ("Target Hit", 5) ∧
     compute (some 97) 100 105 98 "BUY" = ("SL Hit", -2) ∧
     compute (some 101) 100 105 98 "BUY" = ("Open", 1)) ∧
    (evaluate_pnl_classify 106 100 105 98 "BUY" = ("Target Hit", 5) ∧
     evaluate_pnl_classify 97 100 105 98 "BUY" = ("SL Hit", -2) ∧
     evaluate_pnl_classify 101 100 105 98 "BUY" = ("Open", 1)) := by
  refine ⟨?_, ?_, ?_, ?_⟩
  · intro lp entry target stop hent hlp hstop htgt
    refine ⟨fun h => ⟨?_, ?_⟩, fun h => ⟨?_, ?_⟩, fun h1 h2 => ?_⟩
    · simp only [compute, if_neg (by linarith : ¬ lp = 0), if_pos rfl,
        if_pos (by linarith : lp ≥ target), if_true]
    · have : 0 < (target - entry) / entry := div_pos (by linarith) hent
      nlinarith
    · simp only [compute, if_neg (by linarith : ¬ lp = 0), if_pos rfl,
        if_neg (by push_neg; linarith : ¬ lp ≥ target), if_pos h, if_true]
    · have : (stop - entry) / entry < 0 :=
        div_neg_of_neg_of_pos (by linarith) hent
      nlinarith
    · simp only [compute, if_neg (by linarith : ¬ lp = 0), if_pos rfl,
        if_neg (by push_neg; linarith : ¬ lp ≥ target),
        if_neg (by push_neg; linarith : ¬ lp ≤ stop), if_true]
  · intro lp entry target stop hent hlp htgt hstop
    refine ⟨fun h => ⟨?_, ?_⟩, fun h => ⟨?_, ?_⟩, fun h1 h2 => ?_⟩
    · simp only [compute, if_neg (by linarith : ¬ lp = 0),
        if_neg (by decide : ¬ ("SELL" : String) = "BUY"), if_pos rfl,
        if_pos h, if_true]
    · have : 0 < (entry - target) / entry := div_pos (by linarith) hent
      nlinarith
    · simp only [compute, if_neg (by linarith : ¬ lp = 0),
        if_neg (by decide : ¬ ("SELL" : String) = "BUY"), if_pos rfl,
        if_neg (by push_neg; linarith : ¬ lp ≤ target),
        if_pos (by linarith : lp ≥ stop), if_true]
    · have : (entry - stop) / entry < 0 :=
        div_neg_of_neg_of_pos (by linarith) hent
      nlinarith
    · simp only [compute, if_neg (by linarith : ¬ lp = 0),
        if_neg (by decide : ¬ ("SELL" : String) = "BUY"), if_pos rfl,
        if_neg (by push_neg; linarith : ¬ lp ≤ target),
        if_neg (by push_neg; linarith : ¬ lp ≥ stop), if_true]
  · refine ⟨?_, ?_, ?_⟩ <;> norm_num [compute]
  · refine ⟨?_, ?_, ?_⟩ <;> norm_num [evaluate_pnl_classify, round2, round_eq]

/-- Witness for C5: the spec's own scenario, side=BUY, entry=100,
target=105, stop=98, price 106. -/
theorem position_tracker_classification_witness :
    compute (some 106) 100 105 98 "BUY" =
      ("Target Hit", (105 - 100) / 100 * 100) ∧
    0 < ((105 : ℚ) - 100) / 100 * 100 :=
  (position_tracker_classification.1 106 100 105 98 (by norm_num) (by norm_num)
      (by norm_num) (by norm_num)).1 (by norm_num)

/-- C10: a signal dict lacking the `Confidence` key is read as confidence
0 (`sig.get("Confidence", 0)`) and is silently discarded by the
confidence-floor filter, both in `evaluate_for_ticker` (any positive
threshold) and in the `run` pipeline (fixed floor 0.3): removing the
strategy that produced it changes nothing. -/
theorem missing_confidence_discarded {α : Type} :
    (∀ sig : Sig, sig.confidence = none → sig.confidence.getD 0 = 0) ∧
    (∀ (l1 l2 : List (String × StratModule α)) (n t : String) (m : StratModule α)
        (mdf : α) (th : ℚ) (sig : Sig),
        0 < th → sig.confidence = none →
        m.generate_signal t mdf = StratRes.ok (some sig) →
        evaluate_for_ticker (l1 ++ (n, m) :: l2) t mdf th =
          evaluate_for_ticker (l1 ++ l2) t mdf th) ∧
    (∀ (l1 l2 : List (String × StratModule α)) (n now t : String)
        (m : StratModule α) (mdf : α) (sig : Sig),
        sig.confidence = none →
        m.generate_signal t mdf = StratRes.ok (some sig) →
        runEvalStrategies now t mdf (l1 ++ (n, m) :: l2) =
          runEvalStrategies now t mdf (l1 ++ l2)) := by
  refine ⟨fun sig h => by simp [h], ?_, ?_⟩
  · intro l1 l2 n t m mdf th sig hth hconf hgen
    induction l1 with
    | nil =>
      simp only [List.nil_append, evaluate_for_ticker, hgen]
      rw [if_neg]
      simp only [hconf, Option.getD_none]
      push_neg
      exact hth
    | cons hd tl ih =>
      obtain ⟨n', m'⟩ := hd
      cases h' : m'.generate_signal t mdf with
      | fault =>
        simp only [List.cons_append, evaluate_for_ticker, h', List.append_eq, ih]
      | ok o =>
        cases o with
        | none =>
          simp only [List.cons_append, evaluate_for_ticker, h', List.append_eq, ih]
        | some s' =>
          simp only [List.cons_append, evaluate_for_ticker, h', List.append_eq, ih]
  · intro l1 l2 n now t m mdf sig hconf hgen
    induction l1 with
    | nil =>
      simp only [List.nil_append, runEvalStrategies, hgen]
      rw [if_pos]
      simp only [fillRun, hconf, Option.getD_none]
      norm_num
    | cons hd tl ih =>
      obtain ⟨n', m'⟩ := hd
      cases h' : m'.generate_signal t mdf with
      | fault =>
        simp only [List.cons_append, runEvalStrategies, h', List.append_eq, ih]
      | ok o =>
        cases o with
        | none =>
          simp only [List.cons_append, runEvalStrategies, h', List.append_eq, ih]
        | some s' =>
          simp only [List.cons_append, runEvalStrategies, h', List.append_eq, ih]

/-- Witness for C10: a strategy emitting a confidence-less signal is
dropped by both filters on a concrete input. -/
theorem missing_confidence_discarded_witness :
    evaluate_for_ticker [("NC", modNC)] "AAA" () (6/10 : ℚ) =
      evaluate_for_ticker ([] : List (String × StratModule Unit)) "AAA" () (6/10) ∧
    runEvalStrategies "ts" "AAA" () [("NC", modNC)] =
      runEvalStrategies "ts" "AAA" () ([] : List (String × StratModule Unit)) :=
  ⟨missing_confidence_discarded.2.1 [] [] "NC" "AAA" modNC () (6/10) sigNC
      (by norm_num) rfl rfl,
   missing_confidence_discarded.2.2 [] [] "NC" "ts" "AAA" modNC () sigNC rfl rfl⟩

/-- C2 (code bug): `run`'s `dry_run` parameter is never read — the effect
trace is identical for `dry_run=true` and `dry_run=false`, and on a
concrete open-market run with one high-confidence signal, `dry_run=true`
still dispatches both the spreadsheet append and the Telegram message,
contrary to the claim (and to the CLI's own `--dry-run` help text, "Skip
Telegram messages"). -/
theorem dry_run_not_suppressing :
    (∀ (α : Type) (marketOpen : Bool) (now : String) (fetch : String → FetchRes α)
        (mods : List (String × StratModule α)) (watchlist : List String),
        runEffects true marketOpen now fetch mods watchlist =
          runEffects false marketOpen now fetch mods watchlist) ∧
    Effect.sheetsAppend [fillRun "X" none "ts" sigX] ∈
      runEffects true true "ts" fetchOkU [("X", modX)] ["AAA"] ∧
    Effect.telegramMsg [fillRun "X" none "ts" sigX] ∈
      runEffects true true "ts" fetchOkU [("X", modX)] ["AAA"] := by
  refine ⟨fun α mo now fetch mods wl => rfl, ?_, ?_⟩ <;>
    norm_num [runEffects, runSignals, runEvalStrategies, fillRun, sigX, modX,
      fetchOkU, send_to_google_sheets, send_high_confidence_trades,
      List.mergeSort_singleton]

/-- Rounding `round2 q` overshoots `q` by at most `1/200`. -/
theorem round2_le (q : ℚ) : round2 q ≤ q + 1 / 200 := by
  have h := abs_sub_round ((100 : ℚ) * q)
  rw [abs_le] at h
  unfold round2
  rw [div_le_iff (by norm_num : (0:ℚ) < 100)]
  linarith [h.1, h.2]

/-- Rounding `round2 q` undershoots `q` by at most `1/200`. -/
theorem le_round2 (q : ℚ) : q - 1 / 200 ≤ round2 q := by
  have h := abs_sub_round ((100 : ℚ) * q)
  rw [abs_le] at h
  unfold round2
  rw [le_div_iff (by norm_num : (0:ℚ) < 100)]
  linarith [h.1, h.2]

/-- C4 counterexample: a SELL signal with entry 100 omitting both levels
gets stop-loss 98.5 and target 101.5 — the stop is *below* entry and the
target *above*, so the claimed SELL orientation (stop above, target
below) is violated. -/
theorem default_levels_sell_counterexample :
    (fillRun "S" none "ts" sellSigNL).side = "SELL" ∧
    (fillRun "S" none "ts" sellSigNL).stopLoss = some (197/2) ∧
    (fillRun "S" none "ts" sellSigNL).target = some (203/2) ∧
    ¬ (sellSigNL.entry < (197/2 : ℚ)) ∧ ¬ ((203/2 : ℚ) < sellSigNL.entry) := by
  norm_num [fillRun, sellSigNL, round2, round_eq]

/-- C4 (amended): the pipeline fills omitted levels side-independently,
always stop = round(entry·0.985, 2) and target = round(entry·1.015, 2);
for entries ≥ 1/2 this satisfies the BUY orientation (stop below entry,
target above), for every side. -/
theorem default_levels_side_independent :
    (∀ (name : String) (mt : Option String) (now : String) (s : Sig),
        s.stopLoss = none → s.target = none →
        (fillRun name mt now s).stopLoss = some (round2 (s.entry * (985/1000))) ∧
        (fillRun name mt now s).target = some (round2 (s.entry * (1015/1000)))) ∧
    (∀ e : ℚ, 1/2 ≤ e →
        round2 (e * (985/1000)) < e ∧ e < round2 (e * (1015/1000))) := by
  constructor
  · intro name mt now s h1 h2
    simp [fillRun, h1, h2]
  · intro e he
    constructor
    · have := round2_le (e * (985/1000))
      linarith
    · have := le_round2 (e * (1015/1000))
      linarith

/-- Witness for C4's amended claim at the concrete SELL signal and
entry 100. -/
theorem default_levels_side_independent_witness :
    (fillRun "S" none "ts" sellSigNL).stopLoss =
      some (round2 (sellSigNL.entry * (985/1000))) ∧
    (fillRun "S" none "ts" sellSigNL).target =
      some (round2 (sellSigNL.entry * (1015/1000))) ∧
    round2 ((100 : ℚ) * (985/1000)) < 100 ∧
    (100 : ℚ) < round2 (100 * (1015/1000)) :=
  ⟨(default_levels_side_independent.1 "S" none "ts" sellSigNL rfl rfl).1,
   (default_levels_side_independent.1 "S" none "ts" sellSigNL rfl rfl).2,
   (default_levels_side_independent.2 100 (by norm_num)).1,
   (default_levels_side_independent.2 100 (by norm_num)).2⟩

/-- Helper: a non-faulting floor-passing signal of any listed strategy is
in the per-ticker output of `run`'s strategy loop, provided no strategy
faults on this ticker. -/
theorem mem_runEvalStrategies {α : Type} (now t : String) (mdf : α)
    (mods : List (String × StratModule α)) (name : String) (mod : StratModule α)
    (sig : Sig)
    (hmem : (name, mod) ∈ mods)
    (hnf : ∀ p ∈ mods, p.2.generate_signal t mdf ≠ StratRes.fault)
    (hgen : mod.generate_signal t mdf = StratRes.ok (some sig))
    (hconf : ¬ (fillRun name mod.strategyTypeAttr now sig).confidence.getD 0 < 3/10) :
    fillRun name mod.strategyTypeAttr now sig ∈ runEvalStrategies now t mdf mods := by
  induction mods with
  | nil => cases hmem
  | cons hd tl ih =>
    obtain ⟨n', m'⟩ := hd
    rcases List.mem_cons.mp hmem with heq | htl
    · rw [Prod.mk.injEq] at heq
      obtain ⟨rfl, rfl⟩ := heq
      simp only [runEvalStrategies, hgen]
      rw [if_neg hconf]
      exact List.mem_cons_self _ _
    · have hface := hnf (n', m') (List.mem_cons_self _ _)
      have ihm := ih htl (fun p hp => hnf p (List.mem_cons_of_mem _ hp))
      cases h' : m'.generate_signal t mdf with
      | fault => exact absurd h' hface
      | ok o =>
        cases o with
        | none => simpa only [runEvalStrategies, h'] using ihm
        | some s' =>
          simp only [runEvalStrategies, h']
          split
          · exact ihm
          · exact List.mem_cons_of_mem _ ihm

/-- C1 counterexample: two strategies both emitting BUY signals for
symbol AAA with confidences 0.9 and 0.7 — the final signal list of `run`
keeps both, so it does **not** contain at most one signal per
(symbol, side): no reconciliation happens. -/
theorem run_duplicate_key_counterexample :
    ¬ (runSignals "ts" fetchOkU [("X", modX), ("Y", modY)] ["AAA"]).Pairwise
        (fun a b => a.stock ≠ b.stock ∨ a.side ≠ b.side) := by
  have h : runSignals "ts" fetchOkU [("X", modX), ("Y", modY)] ["AAA"] =
      [fillRun "X" none "ts" sigX, fillRun "Y" none "ts" sigY] := by
    norm_num [runSignals, runEvalStrategies, fillRun, sigX, sigY, modX, modY,
      fetchOkU]
  rw [h]
  intro hp
  have hr := (List.pairwise_cons.mp hp).1 _ (List.mem_cons_self _ _)
  rcases hr with h1 | h1 <;> simp [fillRun, sigX, sigY] at h1

/-- C1 (amended): `run` performs no per-(symbol, side) reconciliation —
every signal that passes the 0.3 confidence floor is retained in the
final list (whenever its symbol's fetch succeeds and no strategy faults
on that symbol), so several signals may share a (symbol, side) key. -/
theorem run_no_reconciliation {α : Type} (now : String)
    (fetch : String → FetchRes α) (mods : List (String × StratModule α))
    (watchlist : List String) (t name : String) (mod : StratModule α)
    (mdf : α) (sig : Sig)
    (hf : fetch t = FetchRes.ok mdf)
    (hmem : (name, mod) ∈ mods)
    (hnf : ∀ p ∈ mods, p.2.generate_signal t mdf ≠ StratRes.fault)
    (hgen : mod.generate_signal t mdf = StratRes.ok (some sig))
    (hconf : ¬ (fillRun name mod.strategyTypeAttr now sig).confidence.getD 0 < 3/10)
    (hw : t ∈ watchlist) :
    fillRun name mod.strategyTypeAttr now sig ∈
      runSignals now fetch mods watchlist := by
  induction watchlist with
  | nil => cases hw
  | cons w ws ih =>
    rcases List.mem_cons.mp hw with rfl | hws
    · simp only [runSignals, hf]
      exact List.mem_append_left _
        (mem_runEvalStrategies now t mdf mods name mod sig hmem hnf hgen hconf)
    · simp only [runSignals]
      exact List.mem_append_right _ (ih hws)

/-- Witness for C1's amended claim: the 0.9-confidence BUY signal is
retained in the concrete run. -/
theorem run_no_reconciliation_witness :
    fillRun "X" none "ts" sigX ∈ runSignals "ts" fetchOkU [("X", modX)] ["AAA"] :=
  run_no_reconciliation "ts" fetchOkU [("X", modX)] ["AAA"] "AAA" "X" modX () sigX
    rfl (List.mem_singleton.mpr rfl)
    (by
      intro p hp
      rw [List.mem_singleton] at hp
      subst hp
      simp [modX])
    rfl (by norm_num [fillRun, sigX]) (List.mem_singleton.mpr rfl)

/-- C6 counterexample: in the `run` pipeline, a strategy fault on a
symbol wipes the accepted signals of the strategies listed after it for
that same symbol: with the faulting strategy F present, strategy Y's
qualifying signal for AAA is lost (count 1 → 0). -/
theorem run_fault_drops_sibling_signal :
    runSignals "ts" fetchOkU [("F", faultModU), ("Y", modY)] ["AAA"] = [] ∧
    runSignals "ts" fetchOkU [("Y", modY)] ["AAA"] = [fillRun "Y" none "ts" sigY] := by
  constructor <;>
    norm_num [runSignals, runEvalStrategies, faultModU, modY, sigY, fetchOkU,
      fillRun]

/-- C6 (amended): in `evaluate_for_ticker` a strategy that faults or
returns none never changes the other strategies' accepted signals; in the
`run` pipeline a returned none is likewise isolated, but a fault is
caught only per symbol — the strategies after the faulting one are
skipped for that symbol, while the signals of every other symbol are
unaffected (`runSignals` distributes over the watchlist). -/
theorem strategy_fault_isolation {α : Type} :
    (∀ (l1 l2 : List (String × StratModule α)) (n t : String) (m : StratModule α)
        (mdf : α) (th : ℚ),
        (m.generate_signal t mdf = StratRes.fault ∨
         m.generate_signal t mdf = StratRes.ok none) →
        evaluate_for_ticker (l1 ++ (n, m) :: l2) t mdf th =
          evaluate_for_ticker (l1 ++ l2) t mdf th) ∧
    (∀ (l1 l2 : List (String × StratModule α)) (n now t : String)
        (m : StratModule α) (mdf : α),
        m.generate_signal t mdf = StratRes.fault →
        runEvalStrategies now t mdf (l1 ++ (n, m) :: l2) =
          runEvalStrategies now t mdf l1) ∧
    (∀ (l1 l2 : List (String × StratModule α)) (n now t : String)
        (m : StratModule α) (mdf : α),
        m.generate_signal t mdf = StratRes.ok none →
        runEvalStrategies now t mdf (l1 ++ (n, m) :: l2) =
          runEvalStrategies now t mdf (l1 ++ l2)) ∧
    (∀ (now : String) (fetch : String → FetchRes α)
        (mods : List (String × StratModule α)) (w1 w2 : List String),
        runSignals now fetch mods (w1 ++ w2) =
          runSignals now fetch mods w1 ++ runSignals now fetch mods w2) := by
  refine ⟨?_, ?_, ?_, ?_⟩
  · intro l1 l2 n t m mdf th hm
    induction l1 with
    | nil =>
      rcases hm with hm | hm <;>
        simp only [List.nil_append, evaluate_for_ticker, hm]
    | cons hd tl ih =>
      obtain ⟨n', m'⟩ := hd
      cases h' : m'.generate_signal t mdf with
      | fault =>
        simp only [List.cons_append, evaluate_for_ticker, h', List.append_eq, ih]
      | ok o =>
        cases o with
        | none =>
          simp only [List.cons_append, evaluate_for_ticker, h', List.append_eq, ih]
        | some s' =>
          simp only [List.cons_append, evaluate_for_ticker, h', List.append_eq, ih]
  · intro l1 l2 n now t m mdf hm
    induction l1 with
    | nil => simp only [List.nil_append, runEvalStrategies, hm]
    | cons hd tl ih =>
      obtain ⟨n', m'⟩ := hd
      cases h' : m'.generate_signal t mdf with
      | fault =>
        simp only [List.cons_append, runEvalStrategies, h', List.append_eq, ih]
      | ok o =>
        cases o with
        | none =>
          simp only [List.cons_append, runEvalStrategies, h', List.append_eq, ih]
        | some s' =>
          simp only [List.cons_append, runEvalStrategies, h', List.append_eq, ih]
  · intro l1 l2 n now t m mdf hm
    induction l1 with
    | nil => simp only [List.nil_append, runEvalStrategies, hm]
    | cons hd tl ih =>
      obtain ⟨n', m'⟩ := hd
      cases h' : m'.generate_signal t mdf with
      | fault =>
        simp only [List.cons_append, runEvalStrategies, h', List.append_eq, ih]
      | ok o =>
        cases o with
        | none =>
          simp only [List.cons_append, runEvalStrategies, h', List.append_eq, ih]
        | some s' =>
          simp only [List.cons_append, runEvalStrategies, h', List.append_eq, ih]
  · intro now fetch mods w1 w2
    induction w1 with
    | nil => simp [runSignals]
    | cons w ws ih =>
      simp only [List.cons_append, runSignals, List.append_eq, ih,
        List.append_assoc]

/-- Witness for C6's amended claim on concrete inputs: the fault is
isolated in `evaluate_for_ticker`, truncates only the same symbol's
remaining strategies in `run`, and other symbols' processing
distributes. -/
theorem strategy_fault_isolation_witness :
    evaluate_for_ticker [("F", faultModU), ("Y", modY)] "AAA" () (6/10 : ℚ) =
      evaluate_for_ticker [("Y", modY)] "AAA" () (6/10 : ℚ) ∧
    runEvalStrategies "ts" "AAA" () [("F", faultModU), ("Y", modY)] =
      runEvalStrategies "ts" "AAA" () ([] : List (String × StratModule Unit)) ∧
    runSignals "ts" fetchOkU [("Y", modY)] (["AAA"] ++ ["BBB"]) =
      runSignals "ts" fetchOkU [("Y", modY)] ["AAA"] ++
        runSignals "ts" fetchOkU [("Y", modY)] ["BBB"] :=
  ⟨strategy_fault_isolation.1 [] [("Y", modY)] "F" "AAA" faultModU () (6/10)
      (Or.inl rfl),
   strategy_fault_isolation.2.1 [] [("Y", modY)] "F" "ts" "AAA" faultModU () rfl,
   strategy_fault_isolation.2.2.2 "ts" fetchOkU [("Y", modY)] ["AAA"] ["BBB"]⟩

/-- Helper: `cellOf` on a cons pair skips a non-matching head column. -/
theorem cellOf_cons_ne (hd c fn : String) (tl cs : List String) (h : hd ≠ fn) :
    cellOf (hd :: tl) (c :: cs) fn = cellOf tl cs fn := by
  have h' : ¬ ((fun (p : String × String) => p.1 == fn) (hd, c) = true) := by
    simp only [beq_iff_eq]
    exact h
  unfold cellOf
  rw [List.zip_cons_cons,
    @List.find?_cons_of_neg (String × String) (fun p => p.1 == fn) (hd, c)
      (tl.zip cs) h']

/-- Helper: `cellOf` on a cons pair returns the head cell for the head
column. -/
theorem cellOf_cons_self (hd c : String) (tl cs : List String) :
    cellOf (hd :: tl) (c :: cs) hd = c := by
  unfold cellOf
  rw [List.zip_cons_cons,
    @List.find?_cons_of_pos (String × String) (fun p => p.1 == hd) (hd, c)
      (tl.zip cs) (by simp)]
  rfl

/-- Helper: looking up a field name absent from the header yields `""`. -/
theorem cellOf_not_mem (header : List String) (row : List String) (fn : String)
    (h : fn ∉ header) : cellOf header row fn = "" := by
  induction header generalizing row with
  | nil => simp [cellOf]
  | cons hd tl ih =>
    cases row with
    | nil => simp [cellOf]
    | cons c cs =>
      rw [cellOf_cons_ne hd c fn tl cs
        (fun e => h (e ▸ List.mem_cons_self _ _))]
      exact ih cs (fun hm => h (List.mem_cons_of_mem _ hm))

/-- Helper: reading back all header fields of an aligned row reproduces
the row. -/
theorem map_cellOf_self (header row : List String) (hnd : header.Nodup)
    (hlen : row.length = header.length) :
    header.map (cellOf header row) = row := by
  induction header generalizing row with
  | nil =>
    cases row with
    | nil => rfl
    | cons c cs => simp at hlen
  | cons hd tl ih =>
    cases row with
    | nil => simp at hlen
    | cons c cs =>
      have hmem : hd ∉ tl := (List.nodup_cons.mp hnd).1
      have hndtl : tl.Nodup := (List.nodup_cons.mp hnd).2
      simp only [List.map_cons]
      have hcell : ∀ a ∈ tl, cellOf (hd :: tl) (c :: cs) a = cellOf tl cs a := by
        intro a ha
        exact cellOf_cons_ne hd c a tl cs (fun e => hmem (e ▸ ha))
      rw [cellOf_cons_self hd c tl cs, List.map_congr_left hcell,
        ih cs hndtl (by simpa using hlen)]

/-- Helper: the padding cells for the widened columns are all `""`. -/
theorem map_cellOf_extras (header row extras : List String)
    (h : ∀ fn ∈ extras, fn ∉ header) :
    extras.map (cellOf header row) = List.replicate extras.length "" := by
  induction extras with
  | nil => rfl
  | cons e es ih =>
    simp only [List.map_cons, List.length_cons, List.replicate_succ]
    rw [cellOf_not_mem header row e (h e (List.mem_cons_self _ _)),
        ih (fun fn hm => h fn (List.mem_cons_of_mem _ hm))]

/-- Helper: the header-set comparison of `append_csv` fails exactly when
new fields appeared. -/
theorem setEq_append_filter (header nf : List String) :
    setEq (header ++ nf.filter (fun fn => fn ∉ header)) header = false ↔
      nf.filter (fun fn => fn ∉ header) ≠ [] := by
  constructor
  · intro hfalse hnil
    rw [hnil, List.append_nil] at hfalse
    have htrue : setEq header header = true := by
      simp [setEq, List.all_eq_true]
    rw [htrue] at hfalse
    cases hfalse
  · intro hne
    cases hex : nf.filter (fun fn => fn ∉ header) with
    | nil => exact absurd hex hne
    | cons e es =>
      have he : e ∈ nf.filter (fun fn => fn ∉ header) := by
        rw [hex]; exact List.mem_cons_self _ _
      have henh : e ∉ header := by
        have := List.mem_filter.mp he
        simpa using this.2
      apply Bool.eq_false_iff.mpr
      intro htrue
      simp only [setEq, Bool.and_eq_true, List.all_eq_true, decide_eq_true_eq]
        at htrue
      exact henh (htrue.1 e (List.mem_append_right _ (List.mem_cons_self _ _)))

/-- C7: appending rows to an existing trade-log CSV: when the batch
carries new fields, the file is rewritten with the widened header
(existing columns first, then the new fields in first-appearance order),
each prior row is preserved verbatim, padded with `""` under the new
columns, and the new rows follow under the widened header; when no new
fields appear, the new rows are simply appended under the existing header
and the prior contents are untouched. -/
theorem append_csv_widened_header (file : CsvFile) (rows : List Row)
    (hnd : file.header.Nodup)
    (hlen : ∀ r ∈ file.rows, r.length = file.header.length) :
    ((collectFields rows).filter (fun fn => fn ∉ file.header) ≠ [] →
      (append_csv file rows).header =
        file.header ++ (collectFields rows).filter (fun fn => fn ∉ file.header) ∧
      (append_csv file rows).rows =
        file.rows.map (fun r =>
          r ++ List.replicate
            ((collectFields rows).filter (fun fn => fn ∉ file.header)).length "") ++
        rows.map (fun r =>
          (file.header ++
            (collectFields rows).filter (fun fn => fn ∉ file.header)).map (rget r))) ∧
    ((collectFields rows).filter (fun fn => fn ∉ file.header) = [] →
      (append_csv file rows).header = file.header ∧
      (append_csv file rows).rows =
        file.rows ++ rows.map (fun r => file.header.map (rget r))) := by
  constructor
  · intro hne
    have hc : setEq
        (file.header ++ (collectFields rows).filter (fun fn => fn ∉ file.header))
        file.header = false :=
      (setEq_append_filter file.header (collectFields rows)).mpr hne
    have hmap : ∀ r ∈ file.rows,
        (file.header ++ (collectFields rows).filter (fun fn => fn ∉ file.header)).map
          (cellOf file.header r) =
          r ++ List.replicate
            ((collectFields rows).filter (fun fn => fn ∉ file.header)).length "" := by
      intro r hr
      rw [List.map_append, map_cellOf_self file.header r hnd (hlen r hr),
          map_cellOf_extras file.header r _
            (fun fn hfn => by simpa using (List.mem_filter.mp hfn).2)]
    simp only [append_csv]
    rw [if_pos hc]
    exact ⟨rfl, by rw [List.map_congr_left hmap]⟩
  · intro hnil
    have hc : ¬ setEq
        (file.header ++ (collectFields rows).filter (fun fn => fn ∉ file.header))
        file.header = false := by
      intro hfalse
      exact (setEq_append_filter file.header (collectFields rows)).mp hfalse hnil
    simp only [append_csv]
    rw [if_neg hc]
    exact ⟨rfl, rfl⟩

/-- Witness for C7: a concrete existing file gains column `c`; the prior
row is preserved and padded, the new row appended. -/
theorem append_csv_widened_header_witness :
    (append_csv ⟨["a", "b"], [["1", "2"]]⟩ [[("a", "3"), ("c", "4")]]).header =
      ["a", "b", "c"] ∧
    (append_csv ⟨["a", "b"], [["1", "2"]]⟩ [[("a", "3"), ("c", "4")]]).rows =
      [["1", "2", ""], ["3", "", "4"]] := by
  have h := (append_csv_widened_header ⟨["a", "b"], [["1", "2"]]⟩
      [[("a", "3"), ("c", "4")]] (by decide) (by decide)).1 (by decide)
  obtain ⟨h1, h2⟩ := h
  constructor
  · rw [h1]; decide
  · rw [h2]; decide

/-- Helper: the flat 10-bar history triggers no scoring rule, so the
scorer yields no entry for it. -/
theorem flatBars_score_none : scoreTicker defaultParams "X" flatBars = none := by
  norm_num [scoreTicker, flatBars, defaultParams, is_close_to_52w_high_low,
    qmean, lastN, listMax, listMin, max_def, min_def]

/-- Helper: a guarded `some` can only equal `some e` when the payloads
agree. -/
theorem ite_some_inj {α : Type} {c : Prop} [Decidable c] {x e : α}
    (h : (if c then some x else none) = some e) : x = e := by
  by_cases hc : c
  · rw [if_pos hc] at h
    exact Option.some.inj h
  · rw [if_neg hc] at h
    cases h

/-- Helper: a scored entry keeps the ticker it was computed from. -/
theorem scoreTicker_ticker_eq (p : UniverseParams) (t : String)
    (df : List DayBar) (e : ScoreEntry) (h : scoreTicker p t df = some e) :
    e.ticker = t := by
  by_cases h10 : df.length < 10
  · unfold scoreTicker at h
    rw [if_pos h10] at h
    cases h
  · unfold scoreTicker at h
    rw [if_neg h10] at h
    simp only [] at h
    rw [← ite_some_inj h]

/-- Helper: symbols the scorer returns come from the scanned pool. -/
theorem get_dynamic_tickers_subset (p : UniverseParams) (pool : List String)
    (data : String → Option (List DayBar)) (t : String)
    (h : t ∈ get_dynamic_tickers p pool data) : t ∈ pool := by
  simp only [get_dynamic_tickers] at h
  obtain ⟨e, he, rfl⟩ := List.mem_map.mp h
  have he2 : e ∈ pool.filterMap (fun t => (data t).bind (scoreTicker p t)) :=
    List.mem_mergeSort.mp (List.mem_of_mem_take he)
  obtain ⟨t', ht', hsome⟩ := List.mem_filterMap.mp he2
  cases hd : data t' with
  | none => rw [hd] at hsome; cases hsome
  | some df =>
    rw [hd] at hsome
    rw [scoreTicker_ticker_eq p t' df e hsome]
    exact ht'

/-- Helper: when no pool candidate scores positively, the scorer returns
the empty list. -/
theorem get_dynamic_tickers_empty (p : UniverseParams) (pool : List String)
    (data : String → Option (List DayBar))
    (h : ∀ t ∈ pool, (data t).bind (scoreTicker p t) = none) :
    get_dynamic_tickers p pool data = [] := by
  simp only [get_dynamic_tickers]
  rw [List.filterMap_eq_nil_iff.mpr h]
  simp

/-- Helper: the first-occurrence dedup fold keeps the accumulator
duplicate-free. -/
theorem dedupFold_nodup (l acc : List String) (h : acc.Nodup) :
    (l.foldl (fun acc t => if t ∈ acc then acc else acc ++ [t]) acc).Nodup := by
  induction l generalizing acc with
  | nil => exact h
  | cons x xs ih =>
    simp only [List.foldl_cons]
    by_cases hx : x ∈ acc
    · rw [if_pos hx]
      exact ih acc h
    · rw [if_neg hx]
      refine ih _ ?_
      rw [List.nodup_append]
      refine ⟨h, List.nodup_singleton x, ?_⟩
      intro a ha hax
      rw [List.mem_singleton] at hax
      subst hax
      exact hx ha

/-- Helper: elements of the dedup fold come from the accumulator or the
scanned list. -/
theorem dedupFold_mem (l acc : List String) (x : String)
    (h : x ∈ l.foldl (fun acc t => if t ∈ acc then acc else acc ++ [t]) acc) :
    x ∈ acc ∨ x ∈ l := by
  induction l generalizing acc with
  | nil => exact Or.inl h
  | cons y ys ih =>
    simp only [List.foldl_cons] at h
    by_cases hy : y ∈ acc
    · rw [if_pos hy] at h
      rcases ih acc h with h' | h'
      · exact Or.inl h'
      · exact Or.inr (List.mem_cons_of_mem _ h')
    · rw [if_neg hy] at h
      rcases ih _ h with h' | h'
      · rcases List.mem_append.mp h' with h'' | h''
        · exact Or.inl h''
        · rw [List.mem_singleton] at h''
          subst h''
          exact Or.inr (List.mem_cons_self _ _)
      · exact Or.inr (List.mem_cons_of_mem _ h')

/-- C3 counterexample: a pool whose only candidate scores zero under the
source's default parameters — `get_dynamic_tickers` returns the empty
list, not `top_n = 8` symbols: there is no fallback sampling. -/
theorem universe_scorer_empty_counterexample :
    get_dynamic_tickers defaultParams ["X"] flatData = [] ∧
    defaultParams.top_n = 8 := by
  constructor
  · simp [get_dynamic_tickers, flatData, flatBars_score_none]
  · rfl

/-- C3 (amended): when no candidate in the pool attains a positive score,
`get_dynamic_tickers` returns the *empty* list (no fallback sampling);
and for every input the watchlist built from core and dynamic picks is
duplicate-free and contains only symbols of core ∪ pool. -/
theorem universe_scorer_no_fallback :
    (∀ (p : UniverseParams) (pool : List String)
        (data : String → Option (List DayBar)),
        (∀ t ∈ pool, (data t).bind (scoreTicker p t) = none) →
        get_dynamic_tickers p pool data = []) ∧
    (∀ (core : List String) (p : UniverseParams) (pool : List String)
        (data : String → Option (List DayBar)),
        (build_watchlist core p pool data).Nodup) ∧
    (∀ (core : List String) (p : UniverseParams) (pool : List String)
        (data : String → Option (List DayBar)) (t : String),
        t ∈ build_watchlist core p pool data → t ∈ core ∨ t ∈ pool) := by
  refine ⟨get_dynamic_tickers_empty, ?_, ?_⟩
  · intro core p pool data
    exact dedupFold_nodup _ _ List.nodup_nil
  · intro core p pool data t h
    rcases dedupFold_mem _ _ _ h with h' | h'
    · cases h'
    · rcases List.mem_append.mp h' with h'' | h''
      · exact Or.inl h''
      · exact Or.inr (get_dynamic_tickers_subset p pool data t h'')

/-- Witness for C3's amended claim at the concrete zero-scoring pool. -/
theorem universe_scorer_no_fallback_witness :
    get_dynamic_tickers defaultParams ["X"] flatData = [] ∧
    (build_watchlist ["CORE"] defaultParams ["X"] flatData).Nodup ∧
    ("CORE" ∈ build_watchlist ["CORE"] defaultParams ["X"] flatData →
      "CORE" ∈ (["CORE"] : List String) ∨ "CORE" ∈ (["X"] : List String)) :=
  ⟨universe_scorer_no_fallback.1 defaultParams ["X"] flatData
      (by
        intro t ht
        rw [List.mem_singleton] at ht
        subst ht
        simp [flatData, flatBars_score_none]),
   universe_scorer_no_fallback.2.1 ["CORE"] defaultParams ["X"] flatData,
   fun h =>
     universe_scorer_no_fallback.2.2 ["CORE"] defaultParams ["X"] flatData "CORE" h⟩

end Trading
